import Mathlib

/-!
Shallow embedding of `src/spell_check.py` (the `src/src/spell_check.py`
version, which the specification was written from) for the spellcheck-action
repository, together with theorems settling the frozen claims C1-C10.

External effects (the GitHub HTTP API, the OpenAI completion endpoint, the
filesystem, `json.loads`) are modelled as explicit oracle inputs; the
observable behaviour of a run is a trace of `Action`s plus the mutable
`has_issues : Bool` flag, and Python exceptions are an explicit
`Except PyExc` error channel.
-/

namespace SpellCheck

/-- Python exceptions that the embedded code can raise.  `systemExit c` models
`sys.exit(c)` (Python's `SystemExit`), which at top level terminates the
process with exit code `c`; any other uncaught exception terminates the
process with exit code 1. -/
inductive PyExc where
  | fileNotFound
  | permissionDenied
  | unicodeDecodeErr
  | nameErr
  | attributeErr
  | typeErr
  | valueErr
  | systemExit (code : Nat)
deriving DecidableEq

/-- Python's `OSError` hierarchy: `FileNotFoundError` and `PermissionError`
are subclasses of `OSError`; `UnicodeDecodeError` is a `ValueError`, not an
`OSError`. -/
def isOSError : PyExc → Bool
  | .fileNotFound => true
  | .permissionDenied => true
  | _ => false

/-- Process exit code produced by an uncaught exception at top level. -/
def exitOfExc : PyExc → Nat
  | .systemExit c => c
  | _ => 1

/-- `true` exactly on the error branch. -/
def isErrorExc {α : Type} (r : Except PyExc α) : Bool :=
  match r with
  | .error _ => true
  | .ok _ => false

/-- JSON values as returned by `json.loads`.  Numbers are modelled as `Int`
(the responses exercised by the checker carry integer line numbers only). -/
inductive JValue where
  | null
  | bool (b : Bool)
  | num (n : Int)
  | str (s : String)
  | arr (xs : List JValue)
  | obj (fields : List (String × JValue))

/-- Python `x == "lit"` for a JSON value `x`: true exactly when `x` is that
string. -/
def jStrEq (v : JValue) (s : String) : Bool :=
  match v with
  | .str t => t == s
  | _ => false

/-- First binding of a key in a decoded JSON object (`json.loads` produces a
dict, so keys are unique). -/
def jLookup (fields : List (String × JValue)) (k : String) : Option JValue :=
  (fields.find? (fun p => p.1 == k)).map (fun p => p.2)

/-- `dict.get(k)`: `None` when absent; calling `.get` on a non-dict raises
`AttributeError`. -/
def jGet (v : JValue) (k : String) : Except PyExc JValue :=
  match v with
  | .obj fields => .ok ((jLookup fields k).getD .null)
  | _ => .error .attributeErr

/-- Substring test, modelling Python's `needle in hay` for strings. -/
def strContains (hay needle : String) : Bool :=
  (List.range (hay.length + 1)).any
    (fun i => ((hay.toList.drop i).take needle.toList.length) == needle.toList)

/-- Does the object's key list contain `"message"`? -/
def hasMessageKey (fields : List (String × JValue)) : Bool :=
  fields.any (fun p => p.1 == "message")

/-- Python `"message" in entry` on a decoded JSON value: key membership for a
dict, element membership for a list, substring test for a string, and
`TypeError` for the non-container scalars. -/
def pyContainsMessage (v : JValue) : Except PyExc Bool :=
  match v with
  | .obj fields => .ok (hasMessageKey fields)
  | .arr xs => .ok (xs.any (fun x => jStrEq x "message"))
  | .str s => .ok (strContains s "message")
  | _ => .error .typeErr

/-- `str.lower()` (ASCII model). -/
def pyLower (s : String) : String := String.mk (s.toList.map Char.toLower)

/-- `str.capitalize()`: first character uppercased, the rest lowercased
(ASCII model). -/
def pyCapitalize (s : String) : String :=
  match s.toList with
  | [] => ""
  | c :: cs => String.mk (c.toUpper :: cs.map Char.toLower)

/-- `value.capitalize()` on a decoded JSON value: only strings have the
method; `None` (a missing field passed through `dict.get`) and the other
shapes raise `AttributeError`. -/
def jCapitalize (v : JValue) : Except PyExc String :=
  match v with
  | .str s => .ok (pyCapitalize s)
  | _ => .error .attributeErr

/-- Python `str()` of a decoded JSON value as interpolated into an f-string.
Scalars are rendered faithfully (`None`, `True`/`False`, decimal integers,
the string itself); the rendering of nested containers (Python would print
their full `repr`) is abbreviated, as the checker's message construction only
ever renders scalar fields. -/
def pyStr : JValue → String
  | .null => "None"
  | .bool true => "True"
  | .bool false => "False"
  | .num n => toString n
  | .str s => s
  | .arr _ => "[...]"
  | .obj _ => "\x7b...\x7d"

/-- Python whitespace as recognised by `str.rstrip()` (ASCII model). -/
def isPySpace (c : Char) : Bool :=
  c == ' ' || c == '\t' || c == '\n' || c == '\r' || c == '\x0b' || c == '\x0c'

/-- Trailing-whitespace trimming on a character list. -/
def rstripList (cs : List Char) : List Char :=
  (cs.reverse.dropWhile isPySpace).reverse

/-- `str.rstrip()`. -/
def pyRstrip (s : String) : String := String.mk (rstripList s.toList)

/-- Core of `str.strip(chars)`: drop characters belonging to the set from
both ends. -/
def stripCore (q : Char → Bool) (l : List Char) : List Char :=
  ((l.dropWhile q).reverse.dropWhile q).reverse

/-- Python `s.strip(chars)`: removes any characters of the set `chars` from
both ends of `s`. -/
def pyStripChars (chars : String) (s : String) : String :=
  String.mk (stripCore (fun c => chars.toList.contains c) s.toList)

/-- The character-set argument of the `result.strip('```json\n```')` call in
`post_inline_comments`. -/
def fenceChars : String := "```json\n```"

/-- Observable effects of a run: one constructor per external side effect the
orchestrator can perform (a DELETE of a review comment, a POST attempt of an
inline comment, a completion-endpoint call, an error-level log line). -/
inductive Action where
  | deleteComment (id : Nat)
  | postAttempt (path : String) (line : JValue) (body : String)
  | detectorCall (numbered : List String)
  | logError (msg : String)

/-- A review comment as listed by `GET .../pulls/{pr}/comments`: the two
fields the code reads (`comment['id']`, `comment['user']['login']`). -/
structure RComment where
  id : Nat
  userLogin : String
deriving DecidableEq

/-- The bot identity whose comments are cleaned up. -/
def botLogin : String := "github-actions[bot]"

/-- The `for comment in response.json()` loop body of
`delete_existing_comments`: one DELETE request per comment authored by
`github-actions[bot]`, nothing for other authors. -/
def deleteLoop : List RComment → List Action
  | [] => []
  | c :: cs =>
    if c.userLogin == botLogin then Action.deleteComment c.id :: deleteLoop cs
    else deleteLoop cs

/-- `GitHubPRCommenter.delete_existing_comments`, with the listing response
as an oracle: `some comments` models a 200 response carrying `comments`,
`none` a non-200 response (which is only logged). -/
def delete_existing_comments (listing : Option (List RComment)) : List Action :=
  match listing with
  | some comments => deleteLoop comments
  | none => [Action.logError "Failed to get comments"]

/-- Outcome of `open(file_path, 'r', encoding='utf-8')` + `readlines()`,
supplied as an oracle per file. -/
inductive ReadEvent where
  | content (lines : List String)
  | fileMissing
  | permissionDenied
  | decodeFailure
deriving DecidableEq

/-- The `open`/`readlines` call inside `FileHandler.read_file`: returns the
lines, or raises `FileNotFoundError`, `PermissionError`, or
`UnicodeDecodeError`. -/
def openReadLines (ev : ReadEvent) : Except PyExc (List String) :=
  match ev with
  | .content ls => .ok ls
  | .fileMissing => .error .fileNotFound
  | .permissionDenied => .error .permissionDenied
  | .decodeFailure => .error .unicodeDecodeErr

/-- `FileHandler.read_file`: the `try` body, with an `except OSError` clause
that logs (the logged text also carries the exception's own message, which is
not modelled) and returns `None`.  An exception that is not an `OSError`
escapes the handler. -/
def read_file (filePath : String) (ev : ReadEvent) :
    Except PyExc (Option (List String) × List Action) :=
  match openReadLines ev with
  | .ok ls => .ok (some ls, [])
  | .error e =>
    if isOSError e then .ok (none, [Action.logError ("Error reading file " ++ filePath)])
    else .error e

/-- The `Config` record built by `Config.__init__` (field getters keep the
`os.getenv` results, hence `Option String`). -/
structure ConfigRec where
  repository : Option String
  token : Option String
  prNumber : Option String
  files : List String
  failOnSpelling : Bool
  failOnGrammar : Bool
  defaultLanguage : Option String
  apiKey : Option String
  model : Option String
  maxTokens : Int
  logLevel : Option String
deriving DecidableEq

/-- `Config.str_to_bool`. -/
def strToBool (v : Option String) : Bool :=
  match v with
  | none => false
  | some s => pyLower s == "true"

/-- Numeric value of a digit list. -/
def digitsVal (ds : List Char) : Nat :=
  ds.foldl (fun a c => a * 10 + (c.toNat - 48)) 0

/-- Python `int(s)` (base 10, ASCII model; underscore digit separators are
not modelled): strips surrounding whitespace, accepts an optional sign
followed by at least one digit, otherwise raises `ValueError` (`none`). -/
def pyInt (s : String) : Option Int :=
  let t := ((s.toList.dropWhile isPySpace).reverse.dropWhile isPySpace).reverse
  match t with
  | [] => none
  | c :: ds =>
    if c == '-' then
      if !ds.isEmpty && ds.all (fun d => d.isDigit) then some (-(digitsVal ds : Int))
      else none
    else if c == '+' then
      if !ds.isEmpty && ds.all (fun d => d.isDigit) then some ((digitsVal ds : Int))
      else none
    else if (c :: ds).all (fun d => d.isDigit) then some ((digitsVal (c :: ds) : Int))
    else none

/-- Python truthiness of an `os.getenv` result: `None` and `""` are falsy. -/
def optTruthy : Option String → Bool
  | none => false
  | some s => !(s == "")

/-- Worker for `pySplit`: walk the characters, cutting at each separator. -/
def splitAux (sep : Char) : List Char → List Char → List String
  | [], acc => [String.mk acc.reverse]
  | c :: cs, acc =>
    if c == sep then String.mk acc.reverse :: splitAux sep cs []
    else splitAux sep cs (c :: acc)

/-- Python `s.split(sep)` for a one-character separator: in particular
`"".split(',') == [""]`. -/
def pySplit (s : String) (sep : Char) : List String :=
  splitAux sep s.toList []

/-- `Config.__init__` + `Config.validate` over an environment oracle
(`env k` is `os.getenv(k)`).  Raises `AttributeError` when `INPUT_FILES` is
unset (`None.split`), `TypeError`/`ValueError` from
`int(os.getenv("INPUT_MODEL_MAX_TOKEN"))`, and `sys.exit(1)` when either
`all(...)` validation check fails; otherwise returns the record. -/
def configLoad (env : String → Option String) : Except PyExc ConfigRec :=
  let repository := env "INPUT_GITHUB_REPOSITORY"
  let token := env "INPUT_GITHUB_TOKEN"
  let prNumber := env "INPUT_PR_NUMBER"
  match env "INPUT_FILES" with
  | none => Except.error PyExc.attributeErr
  | some filesRaw =>
    let files := pySplit filesRaw ','
    let failOnSpelling := strToBool (env "INPUT_FAIL_ON_SPELLING")
    let failOnGrammar := strToBool (env "INPUT_FAIL_ON_GRAMMAR")
    let defaultLanguage := env "INPUT_DEFAULT_LANGUAGE"
    let apiKey := env "INPUT_OPENAI_API_KEY"
    let model := env "INPUT_OPENAI_MODEL"
    match env "INPUT_MODEL_MAX_TOKEN" with
    | none => Except.error PyExc.typeErr
    | some maxRaw =>
      match pyInt maxRaw with
      | none => Except.error PyExc.valueErr
      | some maxTokens =>
        let logLevel := env "INPUT_LOG_LEVEL"
        if !(optTruthy repository && optTruthy token && optTruthy prNumber
              && !files.isEmpty) then
          Except.error (PyExc.systemExit 1)
        else if !(optTruthy apiKey && optTruthy model && !(maxTokens == 0)) then
          Except.error (PyExc.systemExit 1)
        else
          Except.ok { repository, token, prNumber, files, failOnSpelling,
                      failOnGrammar, defaultLanguage, apiKey, model, maxTokens,
                      logLevel }

/-- `SpellCheckProcessor.inject_line_numbers` builds
`f"{idx + 1}: {line.rstrip()}\n"` for each line. -/
def lineTag (n : Nat) : String := toString n ++ ": "

/-- `SpellCheckProcessor.inject_line_numbers`. -/
def injectLineNumbers (lines : List String) : List String :=
  lines.enum.map (fun p => lineTag (p.1 + 1) ++ pyRstrip p.2 ++ "\n")

/-- The `if`/`elif` chain updating `self.has_issues` for one entry. -/
def entryFlagStep (cfg : ConfigRec) (category : JValue) (st : Bool) : Bool :=
  if jStrEq category "spelling issue" && cfg.failOnSpelling then true
  else if jStrEq category "grammar issue" && cfg.failOnGrammar then true
  else st

/-- The `for entry in result_json` loop of
`SpellCheckProcessor.post_inline_comments`: `st` is the incoming
`self.has_issues`; produces the updated flag and the trace of comment-post
attempts.  Entries carrying a `"message"` key are skipped; otherwise the four
fields are read with `dict.get`, the comment body is built (raising
`AttributeError` when `category.capitalize()` is called on a non-string), the
post is attempted, and the flag is updated. -/
def processEntries (cfg : ConfigRec) (filePath : String) :
    Bool → List JValue → Except PyExc (Bool × List Action)
  | st, [] => Except.ok (st, [])
  | st, entry :: rest =>
    match pyContainsMessage entry with
    | .error e => .error e
    | .ok true => processEntries cfg filePath st rest
    | .ok false =>
      match jGet entry "line_number" with
      | .error e => .error e
      | .ok lineNumber =>
        match jGet entry "category" with
        | .error e => .error e
        | .ok category =>
          match jGet entry "original_text" with
          | .error e => .error e
          | .ok originalText =>
            match jGet entry "suggested_text" with
            | .error e => .error e
            | .ok suggestedText =>
              match jCapitalize category with
              | .error e => .error e
              | .ok capCat =>
                let message := "**" ++ capCat ++ "**: `" ++ pyStr originalText
                  ++ "`\n**Suggestion**: `" ++ pyStr suggestedText ++ "`"
                match processEntries cfg filePath (entryFlagStep cfg category st) rest with
                | .error e => .error e
                | .ok (stFinal, acts) =>
                  Except.ok (stFinal, Action.postAttempt filePath lineNumber message :: acts)

/-- `SpellCheckProcessor.post_inline_comments`, with `json.loads` as an
oracle (`loads s = none` models a `json.JSONDecodeError`).  On a decode
failure the `except json.JSONDecodeError` clause runs
`logging.error(f"Failed to decode JSON: {e}")`, whose f-string references the
name `e` that the clause never binds — evaluating it raises `NameError`
instead of logging.  A decoded non-list logs and returns with the flag
unchanged. -/
def post_inline_comments (loads : String → Option JValue) (cfg : ConfigRec)
    (st : Bool) (result : String) (filePath : String) :
    Except PyExc (Bool × List Action) :=
  match loads (pyStripChars fenceChars result) with
  | none => Except.error PyExc.nameErr
  | some (.arr entries) => processEntries cfg filePath st entries
  | some _ => Except.ok (st, [Action.logError "Result is not a list of issues."])

/-- One iteration of the `for file_path in self.config.github['files']` loop
of `SpellCheckProcessor.process_files`: read the file (oracle `ev`); if the
content is truthy (a non-empty line list) annotate it, call the detector
(oracle `det`; `none` models the checker returning `None` after an API
error), and post the inline comments when the response is truthy; otherwise
log a skip. -/
def processOneFile (cfg : ConfigRec) (det : List String → Option String)
    (loads : String → Option JValue) (st : Bool) (filePath : String)
    (ev : ReadEvent) : Except PyExc (Bool × List Action) :=
  match read_file filePath ev with
  | .error e => .error e
  | .ok (fileLines, readActs) =>
    match fileLines with
    | some (l :: ls) =>
      let numbered := injectLineNumbers (l :: ls)
      match det numbered with
      | some result =>
        if result == "" then Except.ok (st, readActs ++ [Action.detectorCall numbered])
        else
          match post_inline_comments loads cfg st result filePath with
          | .error e => .error e
          | .ok (st2, acts) =>
            Except.ok (st2, readActs ++ Action.detectorCall numbered :: acts)
      | none => Except.ok (st, readActs ++ [Action.detectorCall numbered])
    | _ =>
      Except.ok (st, readActs
        ++ [Action.logError ("Skipping file " ++ filePath ++ " due to read error.")])

/-- The whole per-file loop of `SpellCheckProcessor.process_files`, threading
`self.has_issues`. -/
def processFilesLoop (cfg : ConfigRec) (det : List String → Option String)
    (loads : String → Option JValue) (readFs : String → ReadEvent) :
    List String → Bool → Except PyExc (Bool × List Action)
  | [], st => Except.ok (st, [])
  | fp :: rest, st =>
    match processOneFile cfg det loads st fp (readFs fp) with
    | .error e => .error e
    | .ok (st2, acts) =>
      match processFilesLoop cfg det loads readFs rest st2 with
      | .error e => .error e
      | .ok (st3, acts2) => .ok (st3, acts ++ acts2)

/-- `SpellCheckProcessor.check_pr_status`: `sys.exit(1)` when `has_issues`
else `sys.exit(0)`, modelled as the resulting process exit code. -/
def checkPrStatus (hasIssues : Bool) : Nat := if hasIssues then 1 else 0

/-- `SpellCheckProcessor.process_files` end to end: delete the bot's old
comments, run the per-file loop starting from the `has_issues := False` set
in `SpellCheckProcessor.__init__`, then `check_pr_status` decides the exit
code. -/
def process_files (cfg : ConfigRec) (det : List String → Option String)
    (loads : String → Option JValue) (readFs : String → ReadEvent)
    (listing : Option (List RComment)) : Except PyExc (Nat × List Action) :=
  let delActs := delete_existing_comments listing
  match processFilesLoop cfg det loads readFs cfg.files false with
  | .error e => .error e
  | .ok (st, acts) => .ok (checkPrStatus st, delActs ++ acts)

/-! ### Fixtures and spec-facing predicates used by the claim theorems -/

/-- A parsed issue entry is well formed when it is an object, is not the
sentinel (no `"message"` key), and carries a string `category` — the shape
the detector is instructed to produce. -/
def entryWellFormed (e : JValue) : Bool :=
  match e with
  | .obj fields =>
    !hasMessageKey fields
      && (match jLookup fields "category" with
          | some (.str _) => true
          | _ => false)
  | _ => false

/-- An issue's category matches an enabled fail-on flag: the code compares
the category literally against `"spelling issue"` under `failOnSpelling` and
against `"grammar issue"` under `failOnGrammar` (the third documented
category `"both"` is compared against neither flag). -/
def entryMatches (cfg : ConfigRec) (e : JValue) : Bool :=
  match e with
  | .obj fields =>
    let c := (jLookup fields "category").getD .null
    jStrEq c "spelling issue" && cfg.failOnSpelling
      || jStrEq c "grammar issue" && cfg.failOnGrammar
  | _ => false

/-- The claim's "stripping the `N: ` prefix" operation on an annotated
line. -/
def stripTag (n : Nat) (s : String) : String :=
  String.mk (s.toList.drop (lineTag n).toList.length)

/-- A fully validated configuration with fail-on-spelling enabled and
fail-on-grammar disabled, over the single file `doc.md`. -/
def cfgC1 : ConfigRec :=
  { repository := some "octo/repo", token := some "tok", prNumber := some "7",
    files := ["doc.md"], failOnSpelling := true, failOnGrammar := false,
    defaultLanguage := some "en-us", apiKey := some "key", model := some "gpt-4o",
    maxTokens := 1000, logLevel := none }

/-- A parsed spelling issue on line 1. -/
def spellEntry : JValue :=
  .obj [("original_text", .str "teh"), ("suggested_text", .str "the"),
        ("line_number", .num 1), ("category", .str "spelling issue")]

/-- A parsed grammar issue on line 2. -/
def gramEntry : JValue :=
  .obj [("original_text", .str "has went"), ("suggested_text", .str "went"),
        ("line_number", .num 2), ("category", .str "grammar issue")]

/-- Detector oracle that always answers with the marker response `"[x]"`. -/
def detC1 : List String → Option String := fun _ => some "[x]"

/-- `json.loads` oracle decoding the marker response `"[x]"` to the
two-issue array and failing on everything else. -/
def loadsC1 : String → Option JValue :=
  fun s => if s == "[x]" then some (.arr [spellEntry, gramEntry]) else none

/-- Filesystem oracle: every file holds the single line `"Helo world\n"`. -/
def readC1 : String → ReadEvent := fun _ => .content ["Helo world\n"]

/-- `json.loads` oracle that decodes nothing. -/
def loadsNone : String → Option JValue := fun _ => none

/-- The configuration record the loader builds from `envC4`: validation
passes even though `INPUT_FILES` is empty, because `"".split(',')` is the
truthy single-element list `[""]`. -/
def cfgC4 : ConfigRec :=
  { repository := some "octo/repo", token := some "tok", prNumber := some "7",
    files := [""], failOnSpelling := false, failOnGrammar := false,
    defaultLanguage := none, apiKey := some "key", model := some "gpt-4o",
    maxTokens := 1000, logLevel := none }

/-- An environment supplying every required input except that `INPUT_FILES`
is set to the empty string. -/
def envC4 : String → Option String := fun k =>
  if k == "INPUT_GITHUB_REPOSITORY" then some "octo/repo"
  else if k == "INPUT_GITHUB_TOKEN" then some "tok"
  else if k == "INPUT_PR_NUMBER" then some "7"
  else if k == "INPUT_FILES" then some ""
  else if k == "INPUT_OPENAI_API_KEY" then some "key"
  else if k == "INPUT_OPENAI_MODEL" then some "gpt-4o"
  else if k == "INPUT_MODEL_MAX_TOKEN" then some "1000"
  else none

/-! ### Helper lemmas -/

theorem dropWhile_append_of_forall {α : Type} {p : α → Bool} {l₁ : List α}
    (l₂ : List α) (h : ∀ c ∈ l₁, p c = true) :
    (l₁ ++ l₂).dropWhile p = l₂.dropWhile p := by
  induction l₁ with
  | nil => simp
  | cons a t ih =>
    have ha : p a = true := h a (List.mem_cons_self a t)
    have ht : ∀ c ∈ t, p c = true := fun c hc => h c (List.mem_cons_of_mem a hc)
    simp [List.dropWhile_cons, ha, ih ht]

theorem dropWhile_eq_nil_of_forall {α : Type} {p : α → Bool} {l : List α}
    (h : ∀ c ∈ l, p c = true) : l.dropWhile p = [] := by
  have h2 : (l ++ []).dropWhile p = List.dropWhile p [] :=
    dropWhile_append_of_forall [] h
  simpa using h2

theorem dropWhile_append_of_ne {α : Type} {p : α → Bool} {l₁ : List α} (l₂ : List α)
    (h : l₁.dropWhile p ≠ []) :
    (l₁ ++ l₂).dropWhile p = l₁.dropWhile p ++ l₂ := by
  rw [List.dropWhile_append, if_neg (by simp [List.isEmpty_iff, h])]

theorem stripCore_append_append {q : Char → Bool} {pre suf : List Char}
    (l : List Char) (hpre : ∀ c ∈ pre, q c = true) (hsuf : ∀ c ∈ suf, q c = true) :
    stripCore q (pre ++ l ++ suf) = stripCore q l := by
  unfold stripCore
  rw [List.append_assoc, dropWhile_append_of_forall _ hpre]
  by_cases h : l.dropWhile q = []
  · rw [List.dropWhile_append, if_pos (by simp [h]),
        dropWhile_eq_nil_of_forall hsuf, h]
  · rw [dropWhile_append_of_ne _ h, List.reverse_append,
        dropWhile_append_of_forall _ (fun c hc => hsuf c (List.mem_reverse.mp hc))]

theorem entryFlagStep_eq_or (cfg : ConfigRec) (cat : JValue) (st : Bool) :
    entryFlagStep cfg cat st
      = (st || (jStrEq cat "spelling issue" && cfg.failOnSpelling
          || jStrEq cat "grammar issue" && cfg.failOnGrammar)) := by
  by_cases h1 : (jStrEq cat "spelling issue" && cfg.failOnSpelling) = true
  · simp [entryFlagStep, h1]
  · by_cases h2 : (jStrEq cat "grammar issue" && cfg.failOnGrammar) = true
    · simp [entryFlagStep, h1, h2]
    · simp [entryFlagStep, h1, h2,
        Bool.eq_false_iff.mpr h1, Bool.eq_false_iff.mpr h2]

theorem processEntries_nil (cfg : ConfigRec) (fp : String) (st : Bool) :
    processEntries cfg fp st [] = Except.ok (st, []) := rfl

theorem processEntries_cons_message {cfg : ConfigRec} {fp : String} {st : Bool}
    {fields : List (String × JValue)} {rest : List JValue}
    (h : hasMessageKey fields = true) :
    processEntries cfg fp st (JValue.obj fields :: rest)
      = processEntries cfg fp st rest := by
  conv_lhs => rw [processEntries]
  simp [pyContainsMessage, h]

theorem processEntries_cons_obj {cfg : ConfigRec} {fp : String} {st : Bool}
    {fields : List (String × JValue)} {rest : List JValue} {c : String}
    (hmsg : hasMessageKey fields = false)
    (hcat : jLookup fields "category" = some (JValue.str c)) :
    processEntries cfg fp st (JValue.obj fields :: rest)
      = match processEntries cfg fp (entryFlagStep cfg (JValue.str c) st) rest with
        | .error e => .error e
        | .ok (stF, acts) =>
          Except.ok (stF,
            Action.postAttempt fp ((jLookup fields "line_number").getD JValue.null)
              ("**" ++ pyCapitalize c ++ "**: `"
                ++ pyStr ((jLookup fields "original_text").getD JValue.null)
                ++ "`\n**Suggestion**: `"
                ++ pyStr ((jLookup fields "suggested_text").getD JValue.null) ++ "`")
              :: acts) := by
  conv_lhs => rw [processEntries]
  simp [pyContainsMessage, hmsg, jGet, hcat, jCapitalize]

/-! ### Claim theorems -/

/-- C2 (code bug): for every input string whose fence-stripped form is not
decodable as JSON, `post_inline_comments` does not log-and-return — the
`except json.JSONDecodeError` handler evaluates an f-string that references
the unbound name `e`, so the call raises `NameError` past its boundary,
contrary to the claim and to the handler's evident intent to log. -/
theorem c2_decode_failure_raises_nameerror (loads : String → Option JValue)
    (cfg : ConfigRec) (st : Bool) (result filePath : String)
    (h : loads (pyStripChars fenceChars result) = none) :
    post_inline_comments loads cfg st result filePath = Except.error PyExc.nameErr := by
  unfold post_inline_comments
  rw [h]

/-- Witness for C2: the concrete non-JSON response `"not json"` under a
decoder that decodes nothing makes `post_inline_comments` raise `NameError`. -/
theorem c2_decode_failure_raises_nameerror_witness :
    loadsNone (pyStripChars fenceChars "not json") = none ∧
    post_inline_comments loadsNone cfgC1 false "not json" "doc.md"
      = Except.error PyExc.nameErr :=
  ⟨rfl, c2_decode_failure_raises_nameerror loadsNone cfgC1 false "not json" "doc.md" rfl⟩

/-- C3 counterexample: an encoding failure while reading
(`UnicodeDecodeError`) is not an `OSError`, so `read_file` does not return
the "no content" value — the exception escapes `read_file` to its caller,
contrary to the claim. -/
theorem c3_encoding_error_escapes :
    read_file "doc.md" ReadEvent.decodeFailure = Except.error PyExc.unicodeDecodeErr ∧
    isErrorExc (read_file "doc.md" ReadEvent.decodeFailure) = true :=
  ⟨rfl, rfl⟩

/-- C3 (amended): on the `OSError` I/O failures — missing file or permission
error — `read_file` logs the failure and returns `None`; an encoding error
(`UnicodeDecodeError`) is not caught by the `except OSError` handler and
propagates to the caller. -/
theorem c3_read_file_oserror_returns_none (fp : String) (ev : ReadEvent)
    (h : ev = ReadEvent.fileMissing ∨ ev = ReadEvent.permissionDenied) :
    read_file fp ev
      = Except.ok (none, [Action.logError ("Error reading file " ++ fp)]) ∧
    read_file fp ReadEvent.decodeFailure = Except.error PyExc.unicodeDecodeErr := by
  rcases h with h | h <;> subst h <;> exact ⟨rfl, rfl⟩

/-- Witness for C3 (amended): a missing file yields `None` plus a log line. -/
theorem c3_read_file_oserror_returns_none_witness :
    (ReadEvent.fileMissing = ReadEvent.fileMissing
      ∨ ReadEvent.fileMissing = ReadEvent.permissionDenied) ∧
    (read_file "doc.md" ReadEvent.fileMissing
      = Except.ok (none, [Action.logError ("Error reading file " ++ "doc.md")]) ∧
     read_file "doc.md" ReadEvent.decodeFailure
      = Except.error PyExc.unicodeDecodeErr) :=
  ⟨Or.inl rfl, c3_read_file_oserror_returns_none "doc.md" ReadEvent.fileMissing (Or.inl rfl)⟩

/-- C6: given any listing of existing PR review comments,
`delete_existing_comments` issues exactly one delete call per comment whose
author is the bot identity `github-actions[bot]` — in listing order — and
zero delete calls for comments from other authors. -/
theorem c6_delete_only_bot_comments (comments : List RComment) :
    delete_existing_comments (some comments)
      = (comments.filter (fun c => c.userLogin == botLogin)).map
          (fun c => Action.deleteComment c.id) ∧
    (deleteLoop comments).length
      = (comments.filter (fun c => c.userLogin == botLogin)).length := by
  have key : deleteLoop comments
      = (comments.filter (fun c => c.userLogin == botLogin)).map
          (fun c => Action.deleteComment c.id) := by
    induction comments with
    | nil => rfl
    | cons c cs ih =>
      by_cases h : (c.userLogin == botLogin) = true <;>
        simp [deleteLoop, List.filter_cons, h, ih]
  constructor
  · simpa [delete_existing_comments] using key
  · rw [key]
    simp

/-- C7 counterexample: a parsed non-sentinel entry with a missing category
does not continue with a placeholder comment — `category.capitalize()` is
called on `None` and raises `AttributeError`, aborting the loop. -/
theorem c7_missing_category_raises :
    processEntries cfgC1 "doc.md" false
        [JValue.obj [("original_text", JValue.str "teh")]]
      = Except.error PyExc.attributeErr := rfl

/-- C7 (amended): a parsed non-sentinel entry whose category field is
present but not one of the known category strings is processed without
raising: it does not set the failure flag (the incoming flag is passed to
the rest of the loop unchanged) and a comment attempt is still made whose
body renders any missing text fields as the placeholder text `None`; an
entry whose category field is missing instead raises `AttributeError` at
`category.capitalize()`. -/
theorem c7_unknown_category_continues (cfg : ConfigRec) (fp : String) (st : Bool)
    (fields : List (String × JValue)) (rest : List JValue) (c : String)
    (hmsg : hasMessageKey fields = false)
    (hcat : jLookup fields "category" = some (JValue.str c))
    (hs : c ≠ "spelling issue") (hg : c ≠ "grammar issue") :
    processEntries cfg fp st (JValue.obj fields :: rest)
      = Except.map (fun p => (p.1,
          Action.postAttempt fp ((jLookup fields "line_number").getD JValue.null)
            ("**" ++ pyCapitalize c ++ "**: `"
              ++ pyStr ((jLookup fields "original_text").getD JValue.null)
              ++ "`\n**Suggestion**: `"
              ++ pyStr ((jLookup fields "suggested_text").getD JValue.null) ++ "`")
            :: p.2))
          (processEntries cfg fp st rest) ∧
    pyStr JValue.null = "None" := by
  refine ⟨?_, rfl⟩
  rw [processEntries_cons_obj hmsg hcat]
  have hflag : entryFlagStep cfg (JValue.str c) st = st := by
    simp [entryFlagStep, jStrEq, hs, hg]
  rw [hflag]
  cases processEntries cfg fp st rest with
  | error e => rfl
  | ok p => rfl

/-- Witness for C7 (amended): an entry with the unknown category
`"mystery"` and no text fields yields one comment attempt rendering `None`
placeholders, with the flag untouched. -/
theorem c7_unknown_category_continues_witness :
    (hasMessageKey [("category", JValue.str "mystery")] = false
      ∧ jLookup [("category", JValue.str "mystery")] "category"
          = some (JValue.str "mystery")
      ∧ "mystery" ≠ "spelling issue" ∧ "mystery" ≠ "grammar issue") ∧
    (processEntries cfgC1 "doc.md" false
        [JValue.obj [("category", JValue.str "mystery")]]
      = Except.map (fun p => (p.1,
          Action.postAttempt "doc.md"
            ((jLookup [("category", JValue.str "mystery")] "line_number").getD JValue.null)
            ("**" ++ pyCapitalize "mystery" ++ "**: `"
              ++ pyStr ((jLookup [("category", JValue.str "mystery")] "original_text").getD JValue.null)
              ++ "`\n**Suggestion**: `"
              ++ pyStr ((jLookup [("category", JValue.str "mystery")] "suggested_text").getD JValue.null) ++ "`")
            :: p.2))
          (processEntries cfgC1 "doc.md" false []) ∧
     pyStr JValue.null = "None") :=
  ⟨⟨rfl, rfl, by decide, by decide⟩,
   c7_unknown_category_continues cfgC1 "doc.md" false
     [("category", JValue.str "mystery")] [] "mystery" rfl rfl
     (by decide) (by decide)⟩

/-- C10: a readable file with empty content is treated exactly like an
unreadable one by the orchestrator loop: a skip is logged, no detector call
and no comment-post attempt happens, and the `has_issues` flag is unchanged
(the unreadable case differs only by `read_file`'s own error log line). -/
theorem c10_empty_file_skipped (cfg : ConfigRec) (det : List String → Option String)
    (loads : String → Option JValue) (st : Bool) (fp : String) :
    processOneFile cfg det loads st fp (ReadEvent.content [])
      = Except.ok (st,
          [Action.logError ("Skipping file " ++ fp ++ " due to read error.")]) ∧
    processOneFile cfg det loads st fp ReadEvent.fileMissing
      = Except.ok (st,
          [Action.logError ("Error reading file " ++ fp),
           Action.logError ("Skipping file " ++ fp ++ " due to read error.")]) :=
  ⟨rfl, rfl⟩

theorem pyStripChars_fence_wrap (s : String) :
    pyStripChars fenceChars ("```json\n" ++ s ++ "\n```")
      = pyStripChars fenceChars s := by
  unfold pyStripChars
  have h1 : ("```json\n" ++ s ++ "\n```").toList
      = "```json\n".toList ++ s.toList ++ "\n```".toList := rfl
  rw [h1, stripCore_append_append _ (by decide) (by decide)]

/-- C5: a sentinel element (an object carrying a `"message"` field)
contributes zero issues — the loop skips it, posting nothing and leaving the
failure flag as the rest of the entries determine it — and wrapping the raw
response in a Markdown JSON code fence does not change the behaviour of
`post_inline_comments` at all. -/
theorem c5_sentinel_zero_issues :
    (∀ (cfg : ConfigRec) (fp : String) (st : Bool)
        (fields : List (String × JValue)) (rest : List JValue),
      hasMessageKey fields = true →
      processEntries cfg fp st (JValue.obj fields :: rest)
        = processEntries cfg fp st rest) ∧
    (∀ (loads : String → Option JValue) (cfg : ConfigRec) (st : Bool)
        (s fp : String),
      post_inline_comments loads cfg st ("```json\n" ++ s ++ "\n```") fp
        = post_inline_comments loads cfg st s fp) := by
  constructor
  · intro cfg fp st fields rest h
    exact processEntries_cons_message h
  · intro loads cfg st s fp
    unfold post_inline_comments
    rw [pyStripChars_fence_wrap]

/-- Witness for C5: the concrete all-clear sentinel is skipped, and fencing
a concrete response string changes nothing. -/
theorem c5_sentinel_zero_issues_witness :
    hasMessageKey [("message", JValue.str "everything looks good to me")] = true ∧
    processEntries cfgC1 "doc.md" false
        [JValue.obj [("message", JValue.str "everything looks good to me")]]
      = processEntries cfgC1 "doc.md" false [] ∧
    post_inline_comments loadsC1 cfgC1 false ("```json\n" ++ "[x]" ++ "\n```") "doc.md"
      = post_inline_comments loadsC1 cfgC1 false "[x]" "doc.md" :=
  ⟨rfl,
   c5_sentinel_zero_issues.1 cfgC1 "doc.md" false
     [("message", JValue.str "everything looks good to me")] [] rfl,
   c5_sentinel_zero_issues.2 loadsC1 cfgC1 false "[x]" "doc.md"⟩

theorem injectLineNumbers_getD {lines : List String} {i : Nat}
    (h : i < lines.length) :
    (injectLineNumbers lines).getD i ""
      = lineTag (i + 1) ++ pyRstrip (lines.getD i "") ++ "\n" := by
  have h1 : lines[i]? = some lines[i] := List.getElem?_eq_getElem h
  simp [injectLineNumbers, List.getD_eq_getElem?_getD, List.getElem?_map,
    List.getElem?_enum, h1]

theorem rstripList_append_newline (l : List Char) :
    rstripList (rstripList l ++ ['\n']) = rstripList l := by
  unfold rstripList
  rw [List.reverse_append, List.reverse_reverse]
  have h1 : (['\n'] : List Char).reverse = ['\n'] := rfl
  rw [h1, List.singleton_append, List.dropWhile_cons]
  have hsp : isPySpace '\n' = true := rfl
  simp [hsp, List.dropWhile_idempotent]

theorem pyRstrip_mk_append_newline (s : String) :
    pyRstrip (String.mk ((pyRstrip s).toList ++ ['\n'])) = pyRstrip s := by
  show String.mk (rstripList (rstripList s.toList ++ ['\n']))
      = String.mk (rstripList s.toList)
  rw [rstripList_append_newline]


/-- C8: the annotated sequence has the same length as the input, line `N`'s
annotation begins with the literal tag `"N: "`, and stripping that tag from
the annotated line recovers the original line content up to
trailing-whitespace trimming. -/
theorem c8_annotate_roundtrip (lines : List String) :
    (injectLineNumbers lines).length = lines.length ∧
    ∀ i, i < lines.length →
      ((injectLineNumbers lines).getD i "").toList.take (lineTag (i + 1)).toList.length
          = (lineTag (i + 1)).toList ∧
      pyRstrip (stripTag (i + 1) ((injectLineNumbers lines).getD i ""))
        = pyRstrip (lines.getD i "") := by
  constructor
  · simp [injectLineNumbers]
  · intro i h
    rw [injectLineNumbers_getD h]
    have htl : (lineTag (i + 1) ++ pyRstrip (lines.getD i "") ++ "\n").toList
        = (lineTag (i + 1)).toList
            ++ ((pyRstrip (lines.getD i "")).toList ++ ['\n']) := by
      rw [← List.append_assoc]
      rfl
    constructor
    · rw [htl]
      exact List.take_left (lineTag (i + 1)).toList _
    · unfold stripTag
      rw [htl, List.drop_left]
      exact pyRstrip_mk_append_newline (lines.getD i "")

/-- Witness for C8: the two-line input `["Helo  ", "wrld\n"]`, at index 0. -/
theorem c8_annotate_roundtrip_witness :
    (injectLineNumbers ["Helo  ", "wrld\n"]).length
        = (["Helo  ", "wrld\n"] : List String).length ∧
    (0 < (["Helo  ", "wrld\n"] : List String).length) ∧
    ((injectLineNumbers ["Helo  ", "wrld\n"]).getD 0 "").toList.take
        (lineTag (0 + 1)).toList.length = (lineTag (0 + 1)).toList ∧
    pyRstrip (stripTag (0 + 1) ((injectLineNumbers ["Helo  ", "wrld\n"]).getD 0 ""))
      = pyRstrip ((["Helo  ", "wrld\n"] : List String).getD 0 "") :=
  ⟨(c8_annotate_roundtrip ["Helo  ", "wrld\n"]).1, by decide,
   ((c8_annotate_roundtrip ["Helo  ", "wrld\n"]).2 0 (by decide)).1,
   ((c8_annotate_roundtrip ["Helo  ", "wrld\n"]).2 0 (by decide)).2⟩

theorem entryFlagStep_true (cfg : ConfigRec) (cat : JValue) :
    entryFlagStep cfg cat true = true := by
  rw [entryFlagStep_eq_or]
  simp

theorem processEntries_mono (cfg : ConfigRec) (fp : String) :
    ∀ (entries : List JValue) (st st2 : Bool) (acts : List Action),
      processEntries cfg fp st entries = Except.ok (st2, acts) →
      st = true → st2 = true := by
  intro entries
  induction entries with
  | nil =>
    intro st st2 acts h hst
    rw [processEntries_nil] at h
    cases h
    exact hst
  | cons e rest ih =>
    intro st st2 acts h hst
    subst hst
    simp only [processEntries] at h
    repeat' split at h
    all_goals
      first
        | exact Except.noConfusion h
        | exact ih _ _ _ h rfl
        | (cases h
           rename_i heq
           exact ih _ _ _ (entryFlagStep_true cfg _ ▸ heq) rfl)

theorem post_inline_comments_mono (loads : String → Option JValue)
    (cfg : ConfigRec) (st : Bool) (result fp : String) (st2 : Bool)
    (acts : List Action)
    (h : post_inline_comments loads cfg st result fp = Except.ok (st2, acts))
    (hst : st = true) : st2 = true := by
  subst hst
  unfold post_inline_comments at h
  repeat' split at h
  all_goals
    first
      | exact Except.noConfusion h
      | exact processEntries_mono cfg fp _ _ _ _ h rfl
      | (cases h; rfl)

theorem processOneFile_mono (cfg : ConfigRec) (det : List String → Option String)
    (loads : String → Option JValue) (st : Bool) (fp : String) (ev : ReadEvent)
    (st2 : Bool) (acts : List Action)
    (h : processOneFile cfg det loads st fp ev = Except.ok (st2, acts))
    (hst : st = true) : st2 = true := by
  subst hst
  cases ev with
  | fileMissing =>
    simp only [processOneFile, read_file, openReadLines, isOSError] at h
    cases h
    rfl
  | permissionDenied =>
    simp only [processOneFile, read_file, openReadLines, isOSError] at h
    cases h
    rfl
  | decodeFailure =>
    simp only [processOneFile, read_file, openReadLines, isOSError] at h
    exact Except.noConfusion h
  | content ls =>
    cases ls with
    | nil =>
      simp only [processOneFile, read_file, openReadLines] at h
      cases h
      rfl
    | cons l rest =>
      simp only [processOneFile, read_file, openReadLines] at h
      cases hd : det (injectLineNumbers (l :: rest)) with
      | none =>
        rw [hd] at h
        cases h
        rfl
      | some result =>
        rw [hd] at h
        dsimp only at h
        by_cases hres : (result == "") = true
        · rw [if_pos hres] at h
          cases h
          rfl
        · rw [if_neg hres] at h
          cases hp : post_inline_comments loads cfg true result fp with
          | error e =>
            rw [hp] at h
            exact Except.noConfusion h
          | ok p =>
            obtain ⟨stA, actsA⟩ := p
            rw [hp] at h
            dsimp only at h
            cases h
            exact post_inline_comments_mono loads cfg true result fp _ _ hp rfl

theorem processFilesLoop_mono (cfg : ConfigRec) (det : List String → Option String)
    (loads : String → Option JValue) (readFs : String → ReadEvent) :
    ∀ (files : List String) (st st2 : Bool) (acts : List Action),
      processFilesLoop cfg det loads readFs files st = Except.ok (st2, acts) →
      st = true → st2 = true := by
  intro files
  induction files with
  | nil =>
    intro st st2 acts h hst
    cases h
    exact hst
  | cons fp rest ih =>
    intro st st2 acts h hst
    subst hst
    simp only [processFilesLoop] at h
    cases h1 : processOneFile cfg det loads true fp (readFs fp) with
    | error e =>
      rw [h1] at h
      exact Except.noConfusion h
    | ok p =>
      obtain ⟨stA, actsA⟩ := p
      rw [h1] at h
      dsimp only at h
      cases h2 : processFilesLoop cfg det loads readFs rest stA with
      | error e =>
        rw [h2] at h
        exact Except.noConfusion h
      | ok q =>
        obtain ⟨stB, actsB⟩ := q
        rw [h2] at h
        dsimp only at h
        cases h
        have hA : stA = true :=
          processOneFile_mono cfg det loads true fp (readFs fp) stA actsA h1 rfl
        subst hA
        exact ih true _ _ h2 rfl

/-- C9: the run-outcome flag `has_issues` is monotone — every step of the
entry loop, of `post_inline_comments`, of a single file's processing, and of
the whole per-file loop either leaves it unchanged or sets it to true, never
resetting it from true to false — and `process_files` starts the loop from
the initial `false` set in `SpellCheckProcessor.__init__` and reads the
final flag exactly once, through `check_pr_status`, to decide the exit
code. -/
theorem c9_has_issues_monotone :
    (∀ (cfg : ConfigRec) (fp : String) (entries : List JValue)
        (st st2 : Bool) (acts : List Action),
      processEntries cfg fp st entries = Except.ok (st2, acts) →
      st = true → st2 = true) ∧
    (∀ (loads : String → Option JValue) (cfg : ConfigRec) (st : Bool)
        (result fp : String) (st2 : Bool) (acts : List Action),
      post_inline_comments loads cfg st result fp = Except.ok (st2, acts) →
      st = true → st2 = true) ∧
    (∀ (cfg : ConfigRec) (det : List String → Option String)
        (loads : String → Option JValue) (readFs : String → ReadEvent)
        (files : List String) (st st2 : Bool) (acts : List Action),
      processFilesLoop cfg det loads readFs files st = Except.ok (st2, acts) →
      st = true → st2 = true) ∧
    (∀ (cfg : ConfigRec) (det : List String → Option String)
        (loads : String → Option JValue) (readFs : String → ReadEvent)
        (listing : Option (List RComment)) (code : Nat) (acts : List Action),
      process_files cfg det loads readFs listing = Except.ok (code, acts) →
      ∃ st2 acts2, processFilesLoop cfg det loads readFs cfg.files false
          = Except.ok (st2, acts2) ∧ code = checkPrStatus st2) := by
  refine ⟨?_, ?_, ?_, ?_⟩
  · intro cfg fp entries st st2 acts h hst
    exact processEntries_mono cfg fp entries st st2 acts h hst
  · intro loads cfg st result fp st2 acts h hst
    exact post_inline_comments_mono loads cfg st result fp st2 acts h hst
  · intro cfg det loads readFs files st st2 acts h hst
    exact processFilesLoop_mono cfg det loads readFs files st st2 acts h hst
  · intro cfg det loads readFs listing code acts h
    unfold process_files at h
    split at h
    · exact Except.noConfusion h
    · rename_i st2 acts2 heq
      cases h
      exact ⟨st2, acts2, heq, rfl⟩

/-- Witness for C9: on the concrete two-issue run, the loop keeps a flag
that is already true, and the final exit code is exactly
`check_pr_status` of the loop's final flag. -/
theorem c9_has_issues_monotone_witness :
    (processEntries cfgC1 "doc.md" true [spellEntry, gramEntry]
        = Except.ok (true,
            [Action.postAttempt "doc.md" (JValue.num 1)
               "**Spelling issue**: `teh`\n**Suggestion**: `the`",
             Action.postAttempt "doc.md" (JValue.num 2)
               "**Grammar issue**: `has went`\n**Suggestion**: `went`"])) ∧
    (true = true) ∧
    (∃ st2 acts2, processFilesLoop cfgC1 detC1 loadsC1 readC1 cfgC1.files false
        = Except.ok (st2, acts2) ∧ 1 = checkPrStatus st2) :=
  ⟨rfl,
   c9_has_issues_monotone.1 cfgC1 "doc.md" [spellEntry, gramEntry] true true _ rfl rfl,
   c9_has_issues_monotone.2.2.2 cfgC1 detC1 loadsC1 readC1 (some []) 1 _ rfl⟩

theorem processEntries_wellFormed (cfg : ConfigRec) (fp : String) :
    ∀ (entries : List JValue) (st : Bool),
      (∀ e ∈ entries, entryWellFormed e = true) →
      ∃ acts, processEntries cfg fp st entries
        = Except.ok ((st || entries.any (fun e => entryMatches cfg e)), acts) := by
  intro entries
  induction entries with
  | nil =>
    intro st h
    exact ⟨[], by simp [processEntries_nil]⟩
  | cons e rest ih =>
    intro st h
    have he := h e (List.mem_cons_self e rest)
    have hrest : ∀ x ∈ rest, entryWellFormed x = true :=
      fun x hx => h x (List.mem_cons_of_mem e hx)
    cases e with
    | obj fields =>
      simp only [entryWellFormed, Bool.and_eq_true, Bool.not_eq_true'] at he
      obtain ⟨hm, hcatb⟩ := he
      cases hcat : jLookup fields "category" with
      | none => rw [hcat] at hcatb; simp at hcatb
      | some v =>
        rw [hcat] at hcatb
        cases v with
        | str c =>
          rw [processEntries_cons_obj hm hcat]
          obtain ⟨acts, hacts⟩ := ih (entryFlagStep cfg (JValue.str c) st) hrest
          rw [hacts]
          dsimp only
          have hflag : (entryFlagStep cfg (JValue.str c) st
                || rest.any (fun x => entryMatches cfg x))
              = (st || (JValue.obj fields :: rest).any (fun x => entryMatches cfg x)) := by
            rw [entryFlagStep_eq_or, List.any_cons]
            have hme : entryMatches cfg (JValue.obj fields)
                = (jStrEq (JValue.str c) "spelling issue" && cfg.failOnSpelling
                    || jStrEq (JValue.str c) "grammar issue" && cfg.failOnGrammar) := by
              simp [entryMatches, hcat]
            rw [hme, Bool.or_assoc]
          rw [hflag]
          exact ⟨_, rfl⟩
        | null => simp at hcatb
        | bool b => simp at hcatb
        | num n => simp at hcatb
        | arr xs => simp at hcatb
        | obj fs => simp at hcatb
    | null => simp [entryWellFormed] at he
    | bool b => simp [entryWellFormed] at he
    | num n => simp [entryWellFormed] at he
    | str s => simp [entryWellFormed] at he
    | arr xs => simp [entryWellFormed] at he

/-- C1: on the concrete run whose parsed issues are one spelling issue and
one grammar issue with fail-on-spelling enabled and fail-on-grammar
disabled, the orchestrator posts one comment attempt for each of the two
issues and exits with code 1; and in general, over well-formed parsed
issues, the loop ends with the flag true exactly when some issue's category
matches an enabled fail-on flag, so `check_pr_status` exits 1 exactly in
that case and 0 otherwise. -/
theorem c1_exit_policy :
    (process_files cfgC1 detC1 loadsC1 readC1 (some [])
      = Except.ok (1,
          [Action.detectorCall ["1: Helo world\n"],
           Action.postAttempt "doc.md" (JValue.num 1)
             "**Spelling issue**: `teh`\n**Suggestion**: `the`",
           Action.postAttempt "doc.md" (JValue.num 2)
             "**Grammar issue**: `has went`\n**Suggestion**: `went`"])) ∧
    (∀ (cfg : ConfigRec) (fp : String) (entries : List JValue),
      (∀ e ∈ entries, entryWellFormed e = true) →
      ∃ acts, processEntries cfg fp false entries
          = Except.ok (entries.any (fun e => entryMatches cfg e), acts) ∧
        (checkPrStatus (entries.any (fun e => entryMatches cfg e)) = 1
          ↔ entries.any (fun e => entryMatches cfg e) = true) ∧
        (checkPrStatus (entries.any (fun e => entryMatches cfg e)) = 0
          ↔ entries.any (fun e => entryMatches cfg e) = false)) := by
  constructor
  · rfl
  · intro cfg fp entries h
    obtain ⟨acts, hacts⟩ := processEntries_wellFormed cfg fp entries false h
    refine ⟨acts, by simpa using hacts, ?_, ?_⟩
    · cases hb : entries.any (fun e => entryMatches cfg e) <;>
        simp [checkPrStatus, hb]
    · cases hb : entries.any (fun e => entryMatches cfg e) <;>
        simp [checkPrStatus, hb]

/-- Witness for C1: the general exit policy applied to the single concrete
spelling issue under `cfgC1`. -/
theorem c1_exit_policy_witness :
    (∀ e ∈ ([spellEntry] : List JValue), entryWellFormed e = true) ∧
    (∃ acts, processEntries cfgC1 "doc.md" false [spellEntry]
        = Except.ok (([spellEntry] : List JValue).any
            (fun e => entryMatches cfgC1 e), acts) ∧
      (checkPrStatus (([spellEntry] : List JValue).any
            (fun e => entryMatches cfgC1 e)) = 1
        ↔ ([spellEntry] : List JValue).any (fun e => entryMatches cfgC1 e) = true) ∧
      (checkPrStatus (([spellEntry] : List JValue).any
            (fun e => entryMatches cfgC1 e)) = 0
        ↔ ([spellEntry] : List JValue).any (fun e => entryMatches cfgC1 e) = false)) :=
  ⟨by decide, c1_exit_policy.2 cfgC1 "doc.md" [spellEntry] (by decide)⟩

theorem not_of_not_eq_false {b : Bool} (h : (!b) = false) : b = true := by
  cases b
  · exact absurd h (by simp)
  · rfl

theorem configLoad_error_inv (env : String → Option String) (e : PyExc)
    (h : configLoad env = Except.error e) : exitOfExc e = 1 := by
  unfold configLoad at h
  cases h1 : env "INPUT_FILES" with
  | none => rw [h1] at h; cases h; rfl
  | some filesRaw =>
    rw [h1] at h
    dsimp only at h
    cases h2 : env "INPUT_MODEL_MAX_TOKEN" with
    | none => rw [h2] at h; cases h; rfl
    | some maxRaw =>
      rw [h2] at h
      dsimp only at h
      cases h3 : pyInt maxRaw with
      | none => rw [h3] at h; cases h; rfl
      | some mt =>
        rw [h3] at h
        dsimp only at h
        split at h
        · cases h; rfl
        · split at h
          · cases h; rfl
          · exact Except.noConfusion h

theorem configLoad_ok_inv (env : String → Option String) (cfg : ConfigRec)
    (h : configLoad env = Except.ok cfg) :
    optTruthy (env "INPUT_GITHUB_REPOSITORY") = true ∧
    optTruthy (env "INPUT_GITHUB_TOKEN") = true ∧
    optTruthy (env "INPUT_PR_NUMBER") = true ∧
    (env "INPUT_FILES").isSome = true ∧
    optTruthy (env "INPUT_OPENAI_API_KEY") = true ∧
    optTruthy (env "INPUT_OPENAI_MODEL") = true ∧
    (∃ s mt, env "INPUT_MODEL_MAX_TOKEN" = some s ∧ pyInt s = some mt) := by
  unfold configLoad at h
  cases h1 : env "INPUT_FILES" with
  | none => rw [h1] at h; exact Except.noConfusion h
  | some filesRaw =>
    rw [h1] at h
    dsimp only at h
    cases h2 : env "INPUT_MODEL_MAX_TOKEN" with
    | none => rw [h2] at h; exact Except.noConfusion h
    | some maxRaw =>
      rw [h2] at h
      dsimp only at h
      cases h3 : pyInt maxRaw with
      | none => rw [h3] at h; exact Except.noConfusion h
      | some mt =>
        rw [h3] at h
        dsimp only at h
        split at h
        · exact Except.noConfusion h
        · split at h
          · exact Except.noConfusion h
          · rename_i h4 h5
            simp only [Bool.not_eq_true] at h4 h5
            have h4a := not_of_not_eq_false h4
            have h5a := not_of_not_eq_false h5
            rw [Bool.and_eq_true, Bool.and_eq_true, Bool.and_eq_true] at h4a
            rw [Bool.and_eq_true, Bool.and_eq_true] at h5a
            exact ⟨h4a.1.1.1, h4a.1.1.2, h4a.1.2, rfl,
                   h5a.1.1, h5a.1.2, maxRaw, mt, rfl, h3⟩

/-- C4 counterexample: the environment `envC4`, which sets every required
input but leaves `INPUT_FILES` as the empty string, does not make the
configuration loader terminate — `"".split(',')` yields the truthy list
`[""]`, validation passes, and the loader returns a configuration, so the
run proceeds to the network calls. -/
theorem c4_empty_files_passes_validation :
    configLoad envC4 = Except.ok cfgC4 ∧
    cfgC4.files = [""] ∧
    isErrorExc (configLoad envC4) = false :=
  ⟨rfl, rfl, rfl⟩

/-- C4 (amended): for every required configuration value except the file
list — repository, token, PR number, API key, model name, max-token limit —
a missing or empty environment value makes the loader terminate the process
(either by `sys.exit(1)` or by an uncaught exception, both non-zero exits)
before any network call; a missing `INPUT_FILES` also terminates
(`None.split` raises `AttributeError`), but an empty `INPUT_FILES` string
passes validation as the single-element list `[""]` and the loader does not
terminate. -/
theorem c4_required_env_terminates (env : String → Option String) :
    ((env "INPUT_GITHUB_REPOSITORY" = none ∨ env "INPUT_GITHUB_REPOSITORY" = some "") →
      isErrorExc (configLoad env) = true) ∧
    ((env "INPUT_GITHUB_TOKEN" = none ∨ env "INPUT_GITHUB_TOKEN" = some "") →
      isErrorExc (configLoad env) = true) ∧
    ((env "INPUT_PR_NUMBER" = none ∨ env "INPUT_PR_NUMBER" = some "") →
      isErrorExc (configLoad env) = true) ∧
    (env "INPUT_FILES" = none → isErrorExc (configLoad env) = true) ∧
    ((env "INPUT_OPENAI_API_KEY" = none ∨ env "INPUT_OPENAI_API_KEY" = some "") →
      isErrorExc (configLoad env) = true) ∧
    ((env "INPUT_OPENAI_MODEL" = none ∨ env "INPUT_OPENAI_MODEL" = some "") →
      isErrorExc (configLoad env) = true) ∧
    ((env "INPUT_MODEL_MAX_TOKEN" = none ∨ env "INPUT_MODEL_MAX_TOKEN" = some "") →
      isErrorExc (configLoad env) = true) ∧
    (∀ e, configLoad env = Except.error e → exitOfExc e ≠ 0) := by
  have hiserr : (∀ cfg, configLoad env ≠ Except.ok cfg) →
      isErrorExc (configLoad env) = true := by
    intro hno
    cases hc : configLoad env with
    | ok cfg => exact absurd hc (hno cfg)
    | error e => rfl
  refine ⟨?_, ?_, ?_, ?_, ?_, ?_, ?_, ?_⟩
  · intro hv
    apply hiserr
    intro cfg hc
    have inv := (configLoad_ok_inv env cfg hc).1
    rcases hv with hv | hv <;> rw [hv] at inv <;> simp [optTruthy] at inv
  · intro hv
    apply hiserr
    intro cfg hc
    have inv := (configLoad_ok_inv env cfg hc).2.1
    rcases hv with hv | hv <;> rw [hv] at inv <;> simp [optTruthy] at inv
  · intro hv
    apply hiserr
    intro cfg hc
    have inv := (configLoad_ok_inv env cfg hc).2.2.1
    rcases hv with hv | hv <;> rw [hv] at inv <;> simp [optTruthy] at inv
  · intro hv
    apply hiserr
    intro cfg hc
    have inv := (configLoad_ok_inv env cfg hc).2.2.2.1
    rw [hv] at inv
    simp at inv
  · intro hv
    apply hiserr
    intro cfg hc
    have inv := (configLoad_ok_inv env cfg hc).2.2.2.2.1
    rcases hv with hv | hv <;> rw [hv] at inv <;> simp [optTruthy] at inv
  · intro hv
    apply hiserr
    intro cfg hc
    have inv := (configLoad_ok_inv env cfg hc).2.2.2.2.2.1
    rcases hv with hv | hv <;> rw [hv] at inv <;> simp [optTruthy] at inv
  · intro hv
    apply hiserr
    intro cfg hc
    obtain ⟨s, mt, hs, hpi⟩ := (configLoad_ok_inv env cfg hc).2.2.2.2.2.2
    rcases hv with hv | hv
    · rw [hv] at hs
      exact Option.noConfusion hs
    · rw [hv] at hs
      have hse : s = "" := (Option.some.injEq _ _ ▸ hs).symm
      rw [hse] at hpi
      exact Option.noConfusion (hpi.symm.trans (rfl : pyInt "" = none))
  · intro e he
    rw [configLoad_error_inv env e he]
    decide

/-- Witness for C4 (amended): the everything-missing environment makes the
loader terminate. -/
theorem c4_required_env_terminates_witness :
    (((fun _ => none : String → Option String) "INPUT_GITHUB_REPOSITORY" = none
        ∨ (fun _ => none : String → Option String) "INPUT_GITHUB_REPOSITORY" = some "")) ∧
    isErrorExc (configLoad (fun _ => none)) = true :=
  ⟨Or.inl rfl, (c4_required_env_terminates (fun _ => none)).1 (Or.inl rfl)⟩

end SpellCheck
